import Mathlib

/-!
Verification of an ffplay-style media player (packet queues, frame queues,
clocks and A/V synchronisation).  C doubles are modelled as exact rationals;
a value that may be NaN is modelled as `Option ℚ` with `none` standing for
NaN.  C ints are modelled as `ℤ`.
-/

namespace FFplay

/-! Constants from the source header. -/

/-- Source: `#define AV_SYNC_THRESHOLD_MIN 0.04`. -/
def AV_SYNC_THRESHOLD_MIN : ℚ := 4/100

/-- Source: `#define AV_SYNC_THRESHOLD_MAX 0.1`. -/
def AV_SYNC_THRESHOLD_MAX : ℚ := 1/10

/-- Source: `#define AV_SYNC_FRAMEDUP_THRESHOLD 0.1`. -/
def AV_SYNC_FRAMEDUP_THRESHOLD : ℚ := 1/10

/-- Source: `#define AV_NOSYNC_THRESHOLD 10.0`. -/
def AV_NOSYNC_THRESHOLD : ℚ := 10

/-- Source: `#define MAX_QUEUE_SIZE (15 * 1024 * 1024)`. -/
def MAX_QUEUE_SIZE : ℤ := 15 * 1024 * 1024

/-- Source: `#define MIN_FRAMES 25`. -/
def MIN_FRAMES : ℤ := 25

/-- Source: `#define AUDIO_DIFF_AVG_NB 20`. -/
def AUDIO_DIFF_AVG_NB : ℤ := 20

/-- Source: `#define SAMPLE_CORRECTION_PERCENT_MAX 10`. -/
def SAMPLE_CORRECTION_PERCENT_MAX : ℤ := 10

/-- FFmpeg macro `FFMAX(a,b) ((a) > (b) ? (a) : (b))`. -/
def FFMAX (a b : ℚ) : ℚ := if a > b then a else b

/-- FFmpeg macro `FFMIN(a,b) ((a) > (b) ? (b) : (a))`. -/
def FFMIN (a b : ℚ) : ℚ := if a > b then b else a

/-- C `fabs` on an exact (non-NaN) double. -/
def fabs (x : ℚ) : ℚ := if x < 0 then -x else x

/-- Subtraction of possibly-NaN doubles: NaN propagates. -/
def osub (a b : Option ℚ) : Option ℚ :=
  match a, b with
  | some x, some y => some (x - y)
  | _, _ => none

/-! The Clock structure.  `queue_serial` models the dereference
`*c->queue_serial`, i.e. the current serial of the packet queue the clock
points at. -/

structure Clock where
  pts : ℚ
  pts_drift : ℚ
  last_updated : ℚ
  speed : ℚ
  serial : ℤ
  paused : Bool
  queue_serial : ℤ
  deriving DecidableEq

/-- Embedding of `get_clock`.  `time` is `av_gettime_relative()/1e6` at the
moment of the call.  Returns `none` for NaN. -/
def get_clock (c : Clock) (time : ℚ) : Option ℚ :=
  if c.queue_serial ≠ c.serial then none
  else if c.paused then some c.pts
  else some (c.pts_drift + time - (time - c.last_updated) * (1 - c.speed))

/-- Embedding of `set_clock_at`. -/
def set_clock_at (c : Clock) (pts : ℚ) (serial : ℤ) (time : ℚ) : Clock :=
  { c with pts := pts, last_updated := time, pts_drift := pts - time,
           serial := serial }

/-- Source line 3827: `is->max_frame_duration =
(ic->iformat->flags & AVFMT_TS_DISCONT) ? 10.0 : 3600.0;`. -/
def max_frame_duration_init (ts_discont : Bool) : ℚ :=
  if ts_discont then 10 else 3600

/-- Embedding of `compute_target_delay`.  `video_is_master` is
`get_master_sync_type(is) == AV_SYNC_VIDEO_MASTER`; `diff` is
`get_clock(&is->vidclk) - get_master_clock(is)` (NaN as `none`);
`mfd` is `is->max_frame_duration`. -/
def compute_target_delay (delay : ℚ) (video_is_master : Bool)
    (diff : Option ℚ) (mfd : ℚ) : ℚ :=
  match video_is_master, diff with
  | true, _ => delay
  | false, none => delay
  | false, some d =>
    let sync_threshold :=
      FFMAX AV_SYNC_THRESHOLD_MIN (FFMIN AV_SYNC_THRESHOLD_MAX delay)
    if fabs d < mfd then
      if d ≤ -sync_threshold then FFMAX 0 (delay + d)
      else if d ≥ sync_threshold ∧ delay > AV_SYNC_FRAMEDUP_THRESHOLD then
        delay + d
      else if d ≥ sync_threshold then 2 * delay
      else delay
    else delay

/-- The target-delay rule exactly as the claim words it: correction is
disabled as soon as `|diff| ≥ 10` (NO_SYNC_THRESHOLD), independently of
`max_frame_duration`. -/
def claim_target_delay (delay : ℚ) (d : ℚ) : ℚ :=
  let sync_threshold :=
    FFMAX AV_SYNC_THRESHOLD_MIN (FFMIN AV_SYNC_THRESHOLD_MAX delay)
  if AV_NOSYNC_THRESHOLD ≤ fabs d then delay
  else if d ≤ -sync_threshold then FFMAX 0 (delay + d)
  else if d ≥ sync_threshold ∧ delay > AV_SYNC_FRAMEDUP_THRESHOLD then delay + d
  else if d ≥ sync_threshold then 2 * delay
  else delay

/-- Embedding of `stream_has_enough_packets`: `stream_id < 0 ||
queue->abort_request || (st->disposition & AV_DISPOSITION_ATTACHED_PIC) ||
queue->nb_packets > MIN_FRAMES && (!queue->duration ||
av_q2d(st->time_base) * queue->duration > 1.0)`. -/
def stream_has_enough_packets (stream_id : ℤ) (abort_request : Bool)
    (attached_pic : Bool) (nb_packets : ℤ) (time_base : ℚ)
    (duration : ℤ) : Bool :=
  decide (stream_id < 0) || abort_request || attached_pic ||
    (decide (nb_packets > MIN_FRAMES) &&
      (decide (duration = 0) || decide (time_base * (duration : ℚ) > 1)))

/-- Embedding of the read_thread backpressure test: block (wait 10 ms on the
condvar) when `infinite_buffer < 1` and either the three queues total more
than MAX_QUEUE_SIZE bytes or all three streams have enough packets. -/
def reader_should_block (infinite_buffer : ℤ)
    (audioq_size videoq_size subtitleq_size : ℤ)
    (audio_enough video_enough subtitle_enough : Bool) : Bool :=
  decide (infinite_buffer < 1) &&
    (decide (audioq_size + videoq_size + subtitleq_size > MAX_QUEUE_SIZE) ||
      (audio_enough && video_enough && subtitle_enough))

/-- The per-stream condition exactly as the claim words it: a stream has
enough iff it is absent, aborted or an attached picture, or holds at least
25 packets and at least 1 second of encoded duration. -/
def claim_has_enough (stream_id : ℤ) (abort_request attached_pic : Bool)
    (nb_packets : ℤ) (time_base : ℚ) (duration : ℤ) : Prop :=
  stream_id < 0 ∨ abort_request = true ∨ attached_pic = true ∨
    (nb_packets ≥ 25 ∧ time_base * (duration : ℚ) ≥ 1)

/-! Audio synchronisation state: the fields of VideoState that
`synchronize_audio` reads and writes. -/

structure AudioSyncState where
  audio_diff_cum : ℚ
  audio_diff_avg_coef : ℚ
  audio_diff_avg_count : ℤ
  audio_diff_threshold : ℚ
  deriving DecidableEq

/-- C cast `(int)` of a double: truncation toward zero. -/
def c_int_of_double (q : ℚ) : ℤ := if 0 ≤ q then ⌊q⌋ else ⌈q⌉

/-- libavutil `av_clip(a, amin, amax)`. -/
def av_clip (a amin amax : ℤ) : ℤ :=
  if a < amin then amin else if a > amax then amax else a

/-- Embedding of `synchronize_audio`.  `diff` is
`get_clock(&is->audclk) - get_master_clock(is)` (NaN as `none`), `freq` is
`is->audio_src.freq`.  Returns the wanted sample count and the updated
state.  C integer division in the min/max bounds is `Int.tdiv`. -/
def synchronize_audio (st : AudioSyncState) (audio_is_master : Bool)
    (diff : Option ℚ) (freq : ℤ) (nb_samples : ℤ) : ℤ × AudioSyncState :=
  match audio_is_master, diff with
  | true, _ => (nb_samples, st)
  | false, none =>
    (nb_samples, { st with audio_diff_avg_count := 0, audio_diff_cum := 0 })
  | false, some d =>
    if fabs d < AV_NOSYNC_THRESHOLD then
      let cum := d + st.audio_diff_avg_coef * st.audio_diff_cum
      if st.audio_diff_avg_count < AUDIO_DIFF_AVG_NB then
        (nb_samples,
         { st with audio_diff_cum := cum,
                   audio_diff_avg_count := st.audio_diff_avg_count + 1 })
      else
        let avg_diff := cum * (1 - st.audio_diff_avg_coef)
        if st.audio_diff_threshold ≤ fabs avg_diff then
          let wanted := nb_samples + c_int_of_double (d * (freq : ℚ))
          let min_nb :=
            (nb_samples * (100 - SAMPLE_CORRECTION_PERCENT_MAX)).tdiv 100
          let max_nb :=
            (nb_samples * (100 + SAMPLE_CORRECTION_PERCENT_MAX)).tdiv 100
          (av_clip wanted min_nb max_nb, { st with audio_diff_cum := cum })
        else
          (nb_samples, { st with audio_diff_cum := cum })
    else
      (nb_samples, { st with audio_diff_avg_count := 0, audio_diff_cum := 0 })

/-! The packet queue.  An AVPacket is modelled by the two fields the queue
accounting reads: its byte size and its duration. -/

structure MyAVPacket where
  size : ℤ
  duration : ℤ
  deriving DecidableEq

/-- A queue node: `typedef struct MyAVPacketList { AVPacket *pkt; int
serial; }`.  The serial is stamped at insertion time. -/
structure MyAVPacketList where
  pkt : MyAVPacket
  serial : ℤ
  deriving DecidableEq

/-- Model of `sizeof(MyAVPacketList)` (an 8-byte AVPacket pointer plus a
padded int on LP64): 16 bytes.  Only its positivity matters below. -/
def sizeof_MyAVPacketList : ℤ := 16

structure PacketQueue where
  pkt_list : List MyAVPacketList
  nb_packets : ℤ
  size : ℤ
  duration : ℤ
  serial : ℤ
  abort_request : Bool
  deriving DecidableEq

/-- Embedding of `packet_queue_put_private` (the allocation-success path of
`av_fifo_write`): refuse when aborted, otherwise append the packet stamped
with the queue's current serial and grow the three counters, the byte size
by `pkt->size + sizeof(MyAVPacketList)`. -/
def packet_queue_put_private (q : PacketQueue) (pkt : MyAVPacket) :
    Option PacketQueue :=
  match q.abort_request with
  | true => none
  | false =>
    some { q with
      pkt_list := q.pkt_list ++ [⟨pkt, q.serial⟩],
      nb_packets := q.nb_packets + 1,
      size := q.size + pkt.size + sizeof_MyAVPacketList,
      duration := q.duration + pkt.duration }

/-- Result of one pass of the `packet_queue_get` loop body: `aborted` is
the `ret = -1` exit, `got` the `ret = 1` exit with the popped packet, its
insertion serial and the updated queue, `empty` the non-blocking `ret = 0`
exit, and `wouldBlock` the blocking `SDL_CondWait` arm (the loop then waits
and re-runs). -/
inductive GetResult where
  | aborted
  | got (pkt : MyAVPacket) (serial : ℤ) (q : PacketQueue)
  | empty
  | wouldBlock
  deriving DecidableEq

/-- Embedding of `packet_queue_get`. -/
def packet_queue_get (q : PacketQueue) (block : Bool) : GetResult :=
  match q.abort_request with
  | true => .aborted
  | false =>
    match q.pkt_list with
    | p :: rest =>
      .got p.pkt p.serial
        { q with
          pkt_list := rest,
          nb_packets := q.nb_packets - 1,
          size := q.size - (p.pkt.size + sizeof_MyAVPacketList),
          duration := q.duration - p.pkt.duration }
    | [] => match block with
      | false => .empty
      | true => .wouldBlock

/-- The drain loop of `packet_queue_flush`: `while (av_fifo_read(...) >= 0)
av_packet_free(&pkt1.pkt);` reads nodes one at a time until the fifo is
empty. -/
def flush_drain : List MyAVPacketList → List MyAVPacketList
  | [] => []
  | _ :: rest => flush_drain rest

/-- Embedding of `packet_queue_flush`: drain all nodes, zero the counters,
bump the serial.  No sentinel packet is written. -/
def packet_queue_flush (q : PacketQueue) : PacketQueue :=
  { q with
    pkt_list := flush_drain q.pkt_list,
    nb_packets := 0,
    size := 0,
    duration := 0,
    serial := q.serial + 1 }

/-- The counters-match-contents invariant the code maintains outside the
critical section: count is the number of queued packets, duration the sum
of their durations, and byte size the sum of `pkt->size +
sizeof(MyAVPacketList)` over the queued nodes. -/
def counters_consistent (q : PacketQueue) : Prop :=
  q.nb_packets = q.pkt_list.length ∧
  q.size = (q.pkt_list.map (fun e => e.pkt.size + sizeof_MyAVPacketList)).sum ∧
  q.duration = (q.pkt_list.map (fun e => e.pkt.duration)).sum

/-! Frames and the frame queue. -/

/-- The fields of a queued Frame that the claims read: its presentation
timestamp (NaN as `none`), its fallback duration, its packet serial, and
whether the underlying AVFrame still holds a data reference. -/
structure Frame where
  pts : Option ℚ
  duration : ℚ
  serial : ℤ
  hasRef : Bool
  deriving DecidableEq

/-- Embedding of `vp_duration`: with equal serials the duration is
`nextvp->pts - vp->pts`, falling back to `vp->duration` when that is NaN,
non-positive or above `max_frame_duration`; with differing serials it is
0. -/
def vp_duration (mfd : ℚ) (vp nextvp : Frame) : ℚ :=
  if vp.serial = nextvp.serial then
    match osub nextvp.pts vp.pts with
    | none => vp.duration
    | some d => if d ≤ 0 ∨ d > mfd then vp.duration else d
  else 0

/-- Source: `#define FRAME_QUEUE_SIZE 16` (the largest of the three queue
capacities). -/
def FRAME_QUEUE_SIZE : ℕ := 16

structure FrameQueue where
  queue : List Frame
  rindex : ℕ
  windex : ℕ
  size : ℤ
  max_size : ℕ
  keep_last : Bool
  rindex_shown : ℤ
  deriving DecidableEq

/-- Embedding of `frame_queue_unref_item`: releases the AVFrame's data
(`av_frame_unref`), keeping the slot itself. -/
def frame_queue_unref_item (f : Frame) : Frame := { f with hasRef := false }

/-- Embedding of `frame_queue_init` for the state the claims read: all
fields zeroed by the memset, `max_size = FFMIN(max_size,
FRAME_QUEUE_SIZE)`, `keep_last = !!keep_last`, and `max_size` freshly
allocated empty frames. -/
def frame_queue_init (max_size : ℕ) (keep_last : Bool) : FrameQueue :=
  { queue := List.replicate (min max_size FRAME_QUEUE_SIZE)
      ⟨none, 0, 0, false⟩,
    rindex := 0, windex := 0, size := 0,
    max_size := min max_size FRAME_QUEUE_SIZE,
    keep_last := keep_last, rindex_shown := 0 }

/-- Embedding of `frame_queue_push`: advance the write index with
wrap-around and grow size. -/
def frame_queue_push (f : FrameQueue) : FrameQueue :=
  { f with windex := if f.windex + 1 = f.max_size then 0 else f.windex + 1,
           size := f.size + 1 }

/-- Embedding of `frame_queue_next`: with `keep_last` set and the current
frame not yet shown, only mark it shown; otherwise release the frame at
`rindex`, advance `rindex` with wrap-around and shrink size. -/
def frame_queue_next (f : FrameQueue) : FrameQueue :=
  if f.keep_last = true ∧ f.rindex_shown = 0 then
    { f with rindex_shown := 1 }
  else
    { f with
      queue := f.queue.set f.rindex
        (frame_queue_unref_item (f.queue.getD f.rindex ⟨none, 0, 0, false⟩)),
      rindex := if f.rindex + 1 = f.max_size then 0 else f.rindex + 1,
      size := f.size - 1 }

/-- Embedding of `frame_queue_nb_remaining`: `f->size - f->rindex_shown`. -/
def frame_queue_nb_remaining (f : FrameQueue) : ℤ :=
  f.size - f.rindex_shown

/-! Early frame drop in `get_video_frame`. -/

/-- The frame-drop gate: `framedrop > 0 || (framedrop &&
get_master_sync_type(is) != AV_SYNC_VIDEO_MASTER)`. -/
def framedrop_active (framedrop : ℤ) (video_is_master : Bool) : Bool :=
  decide (framedrop > 0) || (decide (framedrop ≠ 0) && !video_is_master)

/-- The drop decision of `get_video_frame`: the gate is open, the frame has
a valid pts, `diff = dpts - master_clock` is not NaN, `|diff| <
AV_NOSYNC_THRESHOLD`, the frame is late even after the filter delay, the
decoder serial matches the video clock serial, and the video packet queue
is not empty. -/
def get_video_frame_drop (framedrop : ℤ) (video_is_master : Bool)
    (dpts master : Option ℚ) (frame_last_filter_delay : ℚ)
    (pkt_serial vidclk_serial : ℤ) (videoq_nb_packets : ℤ) : Bool :=
  framedrop_active framedrop video_is_master &&
    (match dpts with
     | none => false
     | some _ =>
       match osub dpts master with
       | none => false
       | some d =>
         decide (fabs d < AV_NOSYNC_THRESHOLD) &&
         decide (d - frame_last_filter_delay < 0) &&
         decide (pkt_serial = vidclk_serial) &&
         decide (videoq_nb_packets ≠ 0))

/-- The effect of `get_video_frame` on a successfully decoded picture:
when the drop decision fires the frame is released (`got_picture = 0`, so
it is never enqueued) and `frame_drops_early` is incremented; otherwise
the frame is returned (`got_picture = 1`) and the counter is untouched. -/
def get_video_frame (framedrop : ℤ) (video_is_master : Bool)
    (dpts master : Option ℚ) (frame_last_filter_delay : ℚ)
    (pkt_serial vidclk_serial : ℤ) (videoq_nb_packets : ℤ)
    (frame_drops_early : ℤ) : ℤ × ℤ :=
  if get_video_frame_drop framedrop video_is_master dpts master
      frame_last_filter_delay pkt_serial vidclk_serial videoq_nb_packets then
    (0, frame_drops_early + 1)
  else
    (1, frame_drops_early)

end FFplay

namespace FFplay

theorem FFMAX_eq_max (a b : ℚ) : FFMAX a b = max a b := by
  unfold FFMAX
  rcases le_or_lt a b with h | h
  · rw [if_neg (not_lt.mpr h), max_eq_right h]
  · rw [if_pos h, max_eq_left h.le]

theorem FFMIN_eq_min (a b : ℚ) : FFMIN a b = min a b := by
  unfold FFMIN
  rcases le_or_lt a b with h | h
  · rw [if_neg (not_lt.mpr h), min_eq_left h]
  · rw [if_pos h, min_eq_right h.le]

theorem fabs_eq_abs (x : ℚ) : fabs x = |x| := by
  unfold fabs
  rcases lt_or_le x 0 with h | h
  · rw [if_pos h, abs_of_neg h]
  · rw [if_neg (not_lt.mpr h), abs_of_nonneg h]

theorem flush_drain_eq_nil (l : List MyAVPacketList) : flush_drain l = [] := by
  induction l with
  | nil => rfl
  | cons p rest ih => simpa [flush_drain] using ih

/-- Claim C1: get_clock reads NaN exactly on a serial mismatch; when the
serials agree it returns the stored pts while paused and
`pts_drift + now - (now - last_updated) * (1 - speed)` while running, and
set_clock_at establishes `pts_drift = pts - wall_time_at_set`. -/
theorem get_clock_spec (c : Clock) (now p t : ℚ) (s : ℤ) :
    (c.queue_serial ≠ c.serial → get_clock c now = none) ∧
    (c.queue_serial = c.serial → c.paused = true →
       get_clock c now = some c.pts) ∧
    (c.queue_serial = c.serial → c.paused = false →
       get_clock c now =
         some (c.pts_drift + now - (now - c.last_updated) * (1 - c.speed))) ∧
    (set_clock_at c p s t).pts_drift = p - t := by
  refine ⟨fun h => ?_, fun h hp => ?_, fun h hp => ?_, rfl⟩
  · simp [get_clock, h]
  · simp [get_clock, h, hp]
  · simp [get_clock, h, hp]

/-- Witness for C1 at concrete clocks. -/
theorem get_clock_spec_witness :
    get_clock ⟨3, 1, 2, 1, 5, false, 5⟩ 4 =
      some (1 + 4 - (4 - 2) * (1 - 1)) ∧
    get_clock ⟨3, 1, 2, 1, 5, true, 5⟩ 4 = some 3 ∧
    get_clock ⟨3, 1, 2, 1, 5, false, 6⟩ 4 = none ∧
    (set_clock_at ⟨3, 1, 2, 1, 5, false, 5⟩ 7 9 2).pts_drift = 7 - 2 :=
  ⟨(get_clock_spec ⟨3, 1, 2, 1, 5, false, 5⟩ 4 7 2 9).2.2.1 rfl rfl,
   (get_clock_spec ⟨3, 1, 2, 1, 5, true, 5⟩ 4 7 2 9).2.1 rfl rfl,
   (get_clock_spec ⟨3, 1, 2, 1, 5, false, 6⟩ 4 7 2 9).1 (by decide),
   (get_clock_spec ⟨3, 1, 2, 1, 5, false, 5⟩ 4 7 2 9).2.2.2⟩

/-- Counterexample to claim C2 as stated: with the default (non
TS_DISCONT) `max_frame_duration = 3600`, a diff of 20 s — twice
NO_SYNC_THRESHOLD — still triggers correction: at `delay = 1/20` the code
returns `2 * delay = 1/10`, while the claim demands `delay` unchanged. -/
theorem compute_target_delay_counterexample :
    compute_target_delay (1/20) false (some 20) (max_frame_duration_init false)
      = 1/10 ∧
    claim_target_delay (1/20) 20 = 1/20 ∧ (1/10 : ℚ) ≠ 1/20 := by
  refine ⟨?_, ?_, by norm_num⟩ <;>
    norm_num [compute_target_delay, claim_target_delay, max_frame_duration_init,
      FFMAX, FFMIN, fabs, AV_SYNC_THRESHOLD_MIN, AV_SYNC_THRESHOLD_MAX,
      AV_SYNC_FRAMEDUP_THRESHOLD, AV_NOSYNC_THRESHOLD]

/-- Claim C2 (amended): correction is disabled when `|diff| ≥
max_frame_duration` (10 s only for TS_DISCONT formats, 3600 s otherwise) or
diff is NaN; below that cutoff the delay is updated to `max 0 (delay+diff)`
when `diff ≤ -sync_threshold`, to `delay+diff` when `diff ≥ sync_threshold`
and `delay > 0.1`, to `2*delay` when `diff ≥ sync_threshold` and
`delay ≤ 0.1`, and is unchanged otherwise, with
`sync_threshold = clamp(delay, 0.04, 0.1)`; when video is master the delay
is always unchanged. -/
theorem compute_target_delay_spec (delay mfd d : ℚ) :
    compute_target_delay delay true (some d) mfd = delay ∧
    compute_target_delay delay false none mfd = delay ∧
    (mfd ≤ |d| → compute_target_delay delay false (some d) mfd = delay) ∧
    (|d| < mfd →
      (d ≤ -(max AV_SYNC_THRESHOLD_MIN (min AV_SYNC_THRESHOLD_MAX delay)) →
        compute_target_delay delay false (some d) mfd = max 0 (delay + d)) ∧
      (d ≥ max AV_SYNC_THRESHOLD_MIN (min AV_SYNC_THRESHOLD_MAX delay) →
        delay > AV_SYNC_FRAMEDUP_THRESHOLD →
        compute_target_delay delay false (some d) mfd = delay + d) ∧
      (d ≥ max AV_SYNC_THRESHOLD_MIN (min AV_SYNC_THRESHOLD_MAX delay) →
        delay ≤ AV_SYNC_FRAMEDUP_THRESHOLD →
        compute_target_delay delay false (some d) mfd = 2 * delay) ∧
      (-(max AV_SYNC_THRESHOLD_MIN (min AV_SYNC_THRESHOLD_MAX delay)) < d →
        d < max AV_SYNC_THRESHOLD_MIN (min AV_SYNC_THRESHOLD_MAX delay) →
        compute_target_delay delay false (some d) mfd = delay)) := by
  have hst : AV_SYNC_THRESHOLD_MIN ≤ max AV_SYNC_THRESHOLD_MIN
      (min AV_SYNC_THRESHOLD_MAX delay) := le_max_left _ _
  have hmin : (0 : ℚ) < AV_SYNC_THRESHOLD_MIN := by
    norm_num [AV_SYNC_THRESHOLD_MIN]
  simp only [compute_target_delay, FFMAX_eq_max, FFMIN_eq_min, fabs_eq_abs]
  refine ⟨trivial, trivial, fun h => ?_, fun h => ⟨fun h1 => ?_, fun h1 h2 => ?_,
    fun h1 h2 => ?_, fun h1 h2 => ?_⟩⟩
  · rw [if_neg (not_lt.mpr h)]
  · rw [if_pos h, if_pos h1]
  · rw [if_pos h, if_neg (show ¬ d ≤ -(max AV_SYNC_THRESHOLD_MIN
        (min AV_SYNC_THRESHOLD_MAX delay)) by intro hc; linarith),
      if_pos (And.intro h1 h2)]
  · rw [if_pos h, if_neg (show ¬ d ≤ -(max AV_SYNC_THRESHOLD_MIN
        (min AV_SYNC_THRESHOLD_MAX delay)) by intro hc; linarith),
      if_neg (show ¬ (d ≥ max AV_SYNC_THRESHOLD_MIN
        (min AV_SYNC_THRESHOLD_MAX delay) ∧
        delay > AV_SYNC_FRAMEDUP_THRESHOLD) by rintro ⟨h3, h4⟩; linarith),
      if_pos h1]
  · rw [if_pos h, if_neg (show ¬ d ≤ -(max AV_SYNC_THRESHOLD_MIN
        (min AV_SYNC_THRESHOLD_MAX delay)) by intro hc; linarith),
      if_neg (show ¬ (d ≥ max AV_SYNC_THRESHOLD_MIN
        (min AV_SYNC_THRESHOLD_MAX delay) ∧
        delay > AV_SYNC_FRAMEDUP_THRESHOLD) by rintro ⟨h3, h4⟩; linarith),
      if_neg (show ¬ d ≥ max AV_SYNC_THRESHOLD_MIN
        (min AV_SYNC_THRESHOLD_MAX delay) by intro hc; linarith)]

/-- Witness for C2 (amended) at concrete inputs. -/
theorem compute_target_delay_spec_witness :
    ((3600 : ℚ) ≤ |(4000 : ℚ)| ∧
      compute_target_delay (1/20) false (some 4000) 3600 = 1/20) ∧
    (|(1 : ℚ)| < 3600 ∧ (1 : ℚ) ≥ max AV_SYNC_THRESHOLD_MIN
        (min AV_SYNC_THRESHOLD_MAX (1/20)) ∧
      compute_target_delay (1/20) false (some 1) 3600 = 2 * (1/20)) ∧
    (((-1 : ℚ)) ≤ -(max AV_SYNC_THRESHOLD_MIN
        (min AV_SYNC_THRESHOLD_MAX (1/20))) ∧
      compute_target_delay (1/20) false (some (-1)) 3600 =
        max 0 (1/20 + (-1))) := by
  have e1 : (3600 : ℚ) ≤ |(4000 : ℚ)| := by norm_num
  have e2 : |(1 : ℚ)| < 3600 := by norm_num
  have e3 : (1 : ℚ) ≥ max AV_SYNC_THRESHOLD_MIN
      (min AV_SYNC_THRESHOLD_MAX (1/20)) := by
    norm_num [AV_SYNC_THRESHOLD_MIN, AV_SYNC_THRESHOLD_MAX, max_def, min_def]
  have e4 : ((-1 : ℚ)) ≤ -(max AV_SYNC_THRESHOLD_MIN
      (min AV_SYNC_THRESHOLD_MAX (1/20))) := by
    norm_num [AV_SYNC_THRESHOLD_MIN, AV_SYNC_THRESHOLD_MAX, max_def, min_def]
  have e5 : |(-1 : ℚ)| < 3600 := by norm_num
  exact ⟨⟨e1, (compute_target_delay_spec (1/20) 3600 4000).2.2.1 e1⟩,
    ⟨e2, e3, ((compute_target_delay_spec (1/20) 3600 1).2.2.2 e2).2.2.1 e3
      (by norm_num [AV_SYNC_FRAMEDUP_THRESHOLD])⟩,
    ⟨e4, ((compute_target_delay_spec (1/20) 3600 (-1)).2.2.2 e5).1 e4⟩⟩

/-- Counterexample to claim C3 as stated: a stream with exactly 25 packets
and 2 seconds of queued duration has "enough" by the claim (at least 25
packets and at least 1 s) but not by the code, which demands strictly more
than MIN_FRAMES = 25 packets. -/
theorem stream_has_enough_packets_counterexample :
    stream_has_enough_packets 0 false false 25 1 2 = false ∧
    claim_has_enough 0 false false 25 1 2 := by
  constructor
  · simp only [stream_has_enough_packets, MIN_FRAMES]
    norm_num
  · exact Or.inr (Or.inr (Or.inr ⟨by norm_num, by norm_num⟩))

/-- Claim C3 (amended): the reader blocks iff buffering is not infinite and
either the three queues exceed 15 MiB in total or every stream has enough
packets, where a stream has enough iff it is absent, aborted or an attached
picture, or holds strictly more than 25 packets and its queued duration is
unknown (0) or strictly exceeds 1 second. -/
theorem reader_should_block_spec (stream_id : ℤ) (ab pic : Bool)
    (nb : ℤ) (tb : ℚ) (dur : ℤ) (inf as vs ss : ℤ) (ae ve se : Bool) :
    (stream_has_enough_packets stream_id ab pic nb tb dur = true ↔
      stream_id < 0 ∨ ab = true ∨ pic = true ∨
        (nb > MIN_FRAMES ∧ (dur = 0 ∨ tb * (dur : ℚ) > 1))) ∧
    (reader_should_block inf as vs ss ae ve se = true ↔
      inf < 1 ∧ (as + vs + ss > MAX_QUEUE_SIZE ∨
        (ae = true ∧ ve = true ∧ se = true))) := by
  constructor
  · simp [stream_has_enough_packets, Bool.or_eq_true, Bool.and_eq_true,
      decide_eq_true_eq, or_assoc, and_assoc]
  · simp [reader_should_block, Bool.or_eq_true, Bool.and_eq_true,
      decide_eq_true_eq, and_assoc]

/-- Counterexample to claim C4 as stated: with weight state
`coef = 0, cum = 0, count = 20, threshold = 0`, a diff of 1/2 s at 3 Hz
gives `diff * freq = 3/2`; the code truncates the C cast toward zero and
returns `1024 + 1 = 1025`, while the claim's `round` gives `1024 + 2`.
Moreover the clamp uses C integer division: at `nb_samples = 15` a large
negative diff yields 13, strictly below 90 percent of 15. -/
theorem synchronize_audio_counterexample :
    (synchronize_audio ⟨0, 0, 20, 0⟩ false (some (1/2)) 3 1024).1 = 1025 ∧
    1024 + round ((1/2 : ℚ) * 3) = 1026 ∧ (1025 : ℤ) ≠ 1026 ∧
    (synchronize_audio ⟨0, 0, 20, 0⟩ false (some (-5)) 100 15).1 = 13 ∧
    ((13 : ℚ) < (100 - 10) / 100 * 15) := by
  have t1 : ((1024 : ℤ) * (100 - SAMPLE_CORRECTION_PERCENT_MAX)).tdiv 100
      = 921 := by decide
  have t2 : ((1024 : ℤ) * (100 + SAMPLE_CORRECTION_PERCENT_MAX)).tdiv 100
      = 1126 := by decide
  have t3 : ((15 : ℤ) * (100 - SAMPLE_CORRECTION_PERCENT_MAX)).tdiv 100
      = 13 := by decide
  have t4 : ((15 : ℤ) * (100 + SAMPLE_CORRECTION_PERCENT_MAX)).tdiv 100
      = 16 := by decide
  have t5 : (⌈((-5 : ℚ) * ((100 : ℤ) : ℚ))⌉ : ℤ) = -500 := by
    rw [show ((-5 : ℚ) * ((100 : ℤ) : ℚ)) = ((-500 : ℤ) : ℚ) by norm_num,
      Int.ceil_intCast]
  refine ⟨?_, ?_, by decide, ?_, by norm_num⟩
  · simp only [synchronize_audio, AUDIO_DIFF_AVG_NB, AV_NOSYNC_THRESHOLD,
      fabs, c_int_of_double, av_clip, t1, t2]
    norm_num
  · norm_num [round_eq]
  · simp only [synchronize_audio, AUDIO_DIFF_AVG_NB, AV_NOSYNC_THRESHOLD,
      fabs, c_int_of_double, av_clip, t3, t4, t5]
    norm_num

/-- Claim C4 (amended): when audio is master, or the diff is NaN or of
magnitude at least 10 s, or fewer than 20 diff samples have accumulated,
the sample count is unchanged (with the averaging state reset in the NaN
and big-diff cases, and the new diff accumulated in the warm-up case); once
20 samples have accumulated, if the weighted average `cum * (1 - coef)` of
the updated cumulative diff reaches the threshold the result is
`nb_samples + (int)(diff * freq)` — C truncation toward zero — clamped to
`[nb*90/100, nb*110/100]` with C integer division, and otherwise
`nb_samples` unchanged. -/
theorem synchronize_audio_spec (st : AudioSyncState) (d : ℚ)
    (freq nb : ℤ) (o : Option ℚ) :
    (synchronize_audio st true o freq nb = (nb, st)) ∧
    (synchronize_audio st false none freq nb =
      (nb, { st with audio_diff_avg_count := 0, audio_diff_cum := 0 })) ∧
    (AV_NOSYNC_THRESHOLD ≤ |d| →
      synchronize_audio st false (some d) freq nb =
        (nb, { st with audio_diff_avg_count := 0, audio_diff_cum := 0 })) ∧
    (|d| < AV_NOSYNC_THRESHOLD →
      st.audio_diff_avg_count < AUDIO_DIFF_AVG_NB →
      synchronize_audio st false (some d) freq nb =
        (nb, { st with
          audio_diff_cum := d + st.audio_diff_avg_coef * st.audio_diff_cum,
          audio_diff_avg_count := st.audio_diff_avg_count + 1 })) ∧
    (|d| < AV_NOSYNC_THRESHOLD →
      AUDIO_DIFF_AVG_NB ≤ st.audio_diff_avg_count →
      st.audio_diff_threshold ≤
        |(d + st.audio_diff_avg_coef * st.audio_diff_cum) *
          (1 - st.audio_diff_avg_coef)| →
      synchronize_audio st false (some d) freq nb =
        (av_clip (nb + c_int_of_double (d * (freq : ℚ)))
          ((nb * (100 - SAMPLE_CORRECTION_PERCENT_MAX)).tdiv 100)
          ((nb * (100 + SAMPLE_CORRECTION_PERCENT_MAX)).tdiv 100),
         { st with audio_diff_cum :=
             d + st.audio_diff_avg_coef * st.audio_diff_cum })) ∧
    (|d| < AV_NOSYNC_THRESHOLD →
      AUDIO_DIFF_AVG_NB ≤ st.audio_diff_avg_count →
      |(d + st.audio_diff_avg_coef * st.audio_diff_cum) *
          (1 - st.audio_diff_avg_coef)| < st.audio_diff_threshold →
      synchronize_audio st false (some d) freq nb =
        (nb, { st with audio_diff_cum :=
          d + st.audio_diff_avg_coef * st.audio_diff_cum })) := by
  refine ⟨rfl, rfl, fun h => ?_, fun h hc => ?_, fun h hc ht => ?_,
    fun h hc ht => ?_⟩ <;>
    simp only [synchronize_audio, fabs_eq_abs]
  · rw [if_neg (not_lt.mpr h)]
  · rw [if_pos h, if_pos hc]
  · rw [if_pos h, if_neg (not_lt.mpr hc), if_pos ht]
  · rw [if_pos h, if_neg (not_lt.mpr hc), if_neg (not_le.mpr ht)]

/-- Witness for C4 (amended) at concrete inputs. -/
theorem synchronize_audio_spec_witness :
    ((10 : ℚ) ≤ |(12 : ℚ)| ∧
      synchronize_audio ⟨3, 1/2, 7, 1⟩ false (some 12) 48000 1024 =
        (1024, ⟨0, 1/2, 0, 1⟩)) ∧
    (|(1 : ℚ)| < 10 ∧ (7 : ℤ) < 20 ∧
      synchronize_audio ⟨3, 1/2, 7, 1⟩ false (some 1) 48000 1024 =
        (1024, ⟨1 + 1/2 * 3, 1/2, 8, 1⟩)) ∧
    (|(1 : ℚ)| < 10 ∧ (20 : ℤ) ≤ 20 ∧
      (1 : ℚ) ≤ |((1 + 1/2 * 3) * (1 - 1/2) : ℚ)| ∧
      synchronize_audio ⟨3, 1/2, 20, 1⟩ false (some 1) 3 1024 =
        (av_clip (1024 + c_int_of_double ((1 : ℚ) * (3 : ℤ)))
          (((1024 : ℤ) * (100 - SAMPLE_CORRECTION_PERCENT_MAX)).tdiv 100)
          (((1024 : ℤ) * (100 + SAMPLE_CORRECTION_PERCENT_MAX)).tdiv 100),
         ⟨1 + 1/2 * 3, 1/2, 20, 1⟩)) := by
  have h1 : (10 : ℚ) ≤ |(12 : ℚ)| := by norm_num
  have h2 : |(1 : ℚ)| < 10 := by norm_num
  have h3 : (1 : ℚ) ≤ |((1 + 1/2 * 3) * (1 - 1/2) : ℚ)| := by
    rw [show ((1 + 1/2 * 3) * (1 - 1/2) : ℚ) = 5/4 by norm_num,
      abs_of_pos (by norm_num : (0 : ℚ) < 5/4)]
    norm_num
  exact ⟨⟨h1, (synchronize_audio_spec ⟨3, 1/2, 7, 1⟩ 12 48000 1024
        none).2.2.1 h1⟩,
    ⟨h2, by norm_num, (synchronize_audio_spec ⟨3, 1/2, 7, 1⟩ 1 48000 1024
        none).2.2.2.1 h2 (by norm_num [AUDIO_DIFF_AVG_NB])⟩,
    ⟨h2, le_refl 20, h3, (synchronize_audio_spec ⟨3, 1/2, 20, 1⟩ 1 3 1024
        none).2.2.2.2.1 h2 (by norm_num [AUDIO_DIFF_AVG_NB]) h3⟩⟩

/-- Counterexample to claim C5 as stated: putting a single packet of byte
size 5 into a fresh empty queue leaves the queue's size field at
`5 + sizeof(MyAVPacketList) = 21`, not at the sum of the contained packets'
byte sizes (5). -/
theorem packet_queue_size_counterexample :
    packet_queue_put_private ⟨[], 0, 0, 0, 7, false⟩ ⟨5, 2⟩ =
      some ⟨[⟨⟨5, 2⟩, 7⟩], 1, 21, 2, 7, false⟩ ∧
    ((21 : ℤ) ≠ 5) := by
  exact ⟨by decide, by decide⟩

/-- Claim C5 (amended): outside the critical section the queue's packet
count and total duration are the number and summed durations of the
contained packets, and its size field is the sum of `pkt->size +
sizeof(MyAVPacketList)` over them; put grows and get shrinks each counter
by exactly the affected packet's contribution and preserves the
invariant. -/
theorem packet_queue_counters_spec (q res : PacketQueue) (pkt : MyAVPacket)
    (b : Bool) (p : MyAVPacketList) (rest : List MyAVPacketList) :
    (counters_consistent q → packet_queue_put_private q pkt = some res →
      counters_consistent res ∧
      res.nb_packets = q.nb_packets + 1 ∧
      res.size = q.size + pkt.size + sizeof_MyAVPacketList ∧
      res.duration = q.duration + pkt.duration) ∧
    (counters_consistent q → q.abort_request = false →
      q.pkt_list = p :: rest →
      packet_queue_get q b =
        .got p.pkt p.serial
          { q with pkt_list := rest, nb_packets := q.nb_packets - 1,
                   size := q.size - (p.pkt.size + sizeof_MyAVPacketList),
                   duration := q.duration - p.pkt.duration } ∧
      counters_consistent
        { q with pkt_list := rest, nb_packets := q.nb_packets - 1,
                 size := q.size - (p.pkt.size + sizeof_MyAVPacketList),
                 duration := q.duration - p.pkt.duration }) := by
  constructor
  · rintro ⟨h1, h2, h3⟩ hput
    cases habort : q.abort_request
    · simp only [packet_queue_put_private, habort, Option.some.injEq] at hput
      subst hput
      refine ⟨⟨?_, ?_, ?_⟩, rfl, rfl, rfl⟩
      · simp only [h1, List.length_append, List.length_cons,
          List.length_nil]
        push_cast
        ring
      · simp only [h2, List.map_append, List.map_cons, List.map_nil,
          List.sum_append, List.sum_cons, List.sum_nil]
        ring
      · simp only [h3, List.map_append, List.map_cons, List.map_nil,
          List.sum_append, List.sum_cons, List.sum_nil]
        ring
    · rw [packet_queue_put_private.eq_def, habort] at hput
      exact Option.noConfusion hput
  · rintro ⟨h1, h2, h3⟩ ha hl
    refine ⟨by simp only [packet_queue_get, ha, hl], ?_, ?_, ?_⟩
    · simp only [h1, hl, List.length_cons]
      push_cast
      ring
    · simp only [h2, hl, List.map_cons, List.sum_cons]
      ring
    · simp only [h3, hl, List.map_cons, List.sum_cons]
      ring

/-- Witness for C5 (amended): the invariant after one put into a fresh
queue, obtained by applying the spec at concrete inputs. -/
theorem packet_queue_counters_spec_witness :
    counters_consistent ⟨[⟨⟨5, 2⟩, 7⟩], 1, 21, 2, 7, false⟩ :=
  (((packet_queue_counters_spec ⟨[], 0, 0, 0, 7, false⟩
      ⟨[⟨⟨5, 2⟩, 7⟩], 1, 21, 2, 7, false⟩ ⟨5, 2⟩ false ⟨⟨5, 2⟩, 7⟩ []).1
    ⟨rfl, rfl, rfl⟩ (by decide))).1

/-- Claim C6: after flush the queue holds no packets (in particular no
sentinel), its byte size, count and duration are 0, its serial is one more
than before, and the abort flag is untouched. -/
theorem packet_queue_flush_spec (q : PacketQueue) :
    (packet_queue_flush q).pkt_list = [] ∧
    (packet_queue_flush q).nb_packets = 0 ∧
    (packet_queue_flush q).size = 0 ∧
    (packet_queue_flush q).duration = 0 ∧
    (packet_queue_flush q).serial = q.serial + 1 ∧
    (packet_queue_flush q).abort_request = q.abort_request :=
  ⟨flush_drain_eq_nil q.pkt_list, rfl, rfl, rfl, rfl, rfl⟩

/-- Claim C9: get returns aborted whenever the abort flag is set; empty
only non-blocking on an empty un-aborted queue; otherwise the FIFO head
with the serial stamped at insertion time, shrinking the counters by that
packet's contribution; blocking mode never returns empty; and put stamps
the inserted node with the queue's serial at insertion. -/
theorem packet_queue_get_spec (q q2 : PacketQueue) (b : Bool)
    (pkt : MyAVPacket) (p : MyAVPacketList) (rest : List MyAVPacketList) :
    (q.abort_request = true → packet_queue_get q b = .aborted) ∧
    (packet_queue_get q b = .empty →
      b = false ∧ q.pkt_list = [] ∧ q.abort_request = false) ∧
    (q.abort_request = false → q.pkt_list = p :: rest →
      packet_queue_get q b =
        .got p.pkt p.serial
          { q with pkt_list := rest, nb_packets := q.nb_packets - 1,
                   size := q.size - (p.pkt.size + sizeof_MyAVPacketList),
                   duration := q.duration - p.pkt.duration }) ∧
    (b = true → packet_queue_get q b ≠ .empty) ∧
    (packet_queue_put_private q pkt = some q2 →
      q2.pkt_list = q.pkt_list ++ [⟨pkt, q.serial⟩]) := by
  refine ⟨fun h => by simp only [packet_queue_get, h], fun h => ?_,
    fun h1 h2 => by simp only [packet_queue_get, h1, h2], fun hb => ?_,
    fun h => ?_⟩
  · cases habort : q.abort_request <;>
      cases hl : q.pkt_list <;> cases hbv : b <;>
      simp only [packet_queue_get, habort, hl, hbv] at h <;>
      simp_all
  · cases habort : q.abort_request <;> cases hl : q.pkt_list <;>
      simp [packet_queue_get, habort, hl, hb]
  · cases habort : q.abort_request
    · simp only [packet_queue_put_private, habort, Option.some.injEq] at h
      subst h
      rfl
    · rw [packet_queue_put_private.eq_def, habort] at h
      exact Option.noConfusion h

/-- Witness for C9 at a concrete queue. -/
theorem packet_queue_get_spec_witness :
    packet_queue_get ⟨[⟨⟨5, 2⟩, 7⟩], 1, 21, 2, 9, false⟩ true =
      .got ⟨5, 2⟩ 7 ⟨[], 0, 0, 0, 9, false⟩ := by
  have h := (packet_queue_get_spec ⟨[⟨⟨5, 2⟩, 7⟩], 1, 21, 2, 9, false⟩
    ⟨[], 0, 0, 0, 9, false⟩ true ⟨5, 2⟩ ⟨⟨5, 2⟩, 7⟩ []).2.2.1 rfl rfl
  exact h


/-- Claim C7: a decoded video frame is dropped before enqueueing iff the
frame-drop gate is open (framedrop forced, or enabled while video is not
master) and `diff = dpts - master_clock` is finite with `|diff| <
NO_SYNC_THRESHOLD`, the frame is still late after the filter delay, the
decoder serial equals the video clock serial and the video packet queue is
non-empty; dropping increments `frame_drops_early` and returns
`got_picture = 0` so the frame is never enqueued. -/
theorem get_video_frame_spec (fd : ℤ) (m : Bool) (dpts master : Option ℚ)
    (lffd : ℚ) (ps vs nbp cnt : ℤ) :
    (0 ≤ nbp →
      (get_video_frame_drop fd m dpts master lffd ps vs nbp = true ↔
        ((fd > 0 ∨ (fd ≠ 0 ∧ m = false)) ∧
          ∃ d, osub dpts master = some d ∧ |d| < AV_NOSYNC_THRESHOLD ∧
            d - lffd < 0 ∧ ps = vs ∧ 1 ≤ nbp))) ∧
    (get_video_frame_drop fd m dpts master lffd ps vs nbp = true →
      get_video_frame fd m dpts master lffd ps vs nbp cnt = (0, cnt + 1)) ∧
    (get_video_frame_drop fd m dpts master lffd ps vs nbp = false →
      get_video_frame fd m dpts master lffd ps vs nbp cnt = (1, cnt)) := by
  refine ⟨fun hnbp => ?_, fun h => ?_, fun h => ?_⟩
  · have hn : (nbp ≠ 0) ↔ (1 ≤ nbp) := by omega
    rcases dpts with _ | a <;> rcases master with _ | b <;>
      simp [get_video_frame_drop, framedrop_active, osub, fabs_eq_abs, hn,
        Bool.and_eq_true, Bool.or_eq_true, decide_eq_true_eq, and_assoc]
  · simp [get_video_frame, h]
  · simp [get_video_frame, h]

/-- Witness for C7: a late frame (diff = -1 s) with the default
framedrop = -1, matching serials and a non-empty packet queue is dropped
and counted. -/
theorem get_video_frame_spec_witness :
    get_video_frame (-1) false (some 1) (some 2) 0 3 3 1 5 = (0, 6) := by
  have hdrop : get_video_frame_drop (-1) false (some 1) (some 2) 0 3 3 1
      = true :=
    ((get_video_frame_spec (-1) false (some 1) (some 2) 0 3 3 1 5).1
        (by norm_num)).mpr
      ⟨Or.inr ⟨by norm_num, rfl⟩,
       ⟨-1, by norm_num [osub], by norm_num [AV_NOSYNC_THRESHOLD],
        by norm_num, rfl, by norm_num⟩⟩
  exact (get_video_frame_spec (-1) false (some 1) (some 2) 0 3 3 1 5).2.1 hdrop

/-- Claim C8: with `keep_last` set and `rindex_shown = 0`, advance only
marks the frame shown, leaving everything else unchanged; otherwise it
releases the frame at `rindex`, advances `rindex` modulo `max_size` and
decrements size; remaining is always `size - rindex_shown`; and
`rindex_shown` stays in {0, 1} (it starts at 0, advance can only set it to
1, push never touches it). -/
theorem frame_queue_next_spec (f : FrameQueue) (ms : ℕ) (kl : Bool) :
    (f.keep_last = true → f.rindex_shown = 0 →
      frame_queue_next f = { f with rindex_shown := 1 }) ∧
    (¬(f.keep_last = true ∧ f.rindex_shown = 0) →
      frame_queue_next f =
        { f with
          queue := f.queue.set f.rindex
            (frame_queue_unref_item
              (f.queue.getD f.rindex ⟨none, 0, 0, false⟩)),
          rindex := if f.rindex + 1 = f.max_size then 0 else f.rindex + 1,
          size := f.size - 1 } ∧
      (f.rindex < f.max_size →
        (frame_queue_next f).rindex = (f.rindex + 1) % f.max_size)) ∧
    (frame_queue_nb_remaining f = f.size - f.rindex_shown) ∧
    ((frame_queue_init ms kl).rindex_shown = 0) ∧
    ((f.rindex_shown = 0 ∨ f.rindex_shown = 1) →
      (frame_queue_next f).rindex_shown = 0 ∨
      (frame_queue_next f).rindex_shown = 1) ∧
    ((frame_queue_push f).rindex_shown = f.rindex_shown) := by
  refine ⟨fun h1 h2 => ?_, fun h => ?_, rfl, rfl, fun h => ?_, rfl⟩
  · simp only [frame_queue_next]
    rw [if_pos ⟨h1, h2⟩]
  · simp only [frame_queue_next]
    rw [if_neg h]
    refine ⟨rfl, fun hlt => ?_⟩
    by_cases he : f.rindex + 1 = f.max_size
    · rw [if_pos he, he, Nat.mod_self]
    · rw [if_neg he, Nat.mod_eq_of_lt (by omega)]
  · simp only [frame_queue_next]
    by_cases hc : f.keep_last = true ∧ f.rindex_shown = 0
    · rw [if_pos hc]
      right
      rfl
    · rw [if_neg hc]
      exact h

/-- Witness for C8: on a one-slot queue with `keep_last`, the first advance
only marks the frame shown and the second releases it, wraps `rindex` and
shrinks size. -/
theorem frame_queue_next_spec_witness :
    frame_queue_next ⟨[⟨some 1, 2, 3, true⟩], 0, 0, 1, 1, true, 0⟩ =
      ⟨[⟨some 1, 2, 3, true⟩], 0, 0, 1, 1, true, 1⟩ ∧
    frame_queue_next ⟨[⟨some 1, 2, 3, true⟩], 0, 0, 1, 1, true, 1⟩ =
      ⟨[⟨some 1, 2, 3, false⟩], 0, 0, 0, 1, true, 1⟩ :=
  ⟨(frame_queue_next_spec ⟨[⟨some 1, 2, 3, true⟩], 0, 0, 1, 1, true, 0⟩
      0 false).1 rfl rfl,
   ((frame_queue_next_spec ⟨[⟨some 1, 2, 3, true⟩], 0, 0, 1, 1, true, 1⟩
      0 false).2.1 (by decide)).1⟩

/-- Claim C10: with differing serials `vp_duration` is exactly 0; with
equal serials it is `nextvp.pts - vp.pts`, falling back to `vp.duration`
when that difference is NaN, non-positive or above `max_frame_duration`. -/
theorem vp_duration_spec (mfd : ℚ) (vp nextvp : Frame) :
    (vp.serial ≠ nextvp.serial → vp_duration mfd vp nextvp = 0) ∧
    (vp.serial = nextvp.serial →
      (osub nextvp.pts vp.pts = none →
        vp_duration mfd vp nextvp = vp.duration) ∧
      (∀ d, osub nextvp.pts vp.pts = some d →
        ((d ≤ 0 ∨ d > mfd) → vp_duration mfd vp nextvp = vp.duration) ∧
        (0 < d → d ≤ mfd → vp_duration mfd vp nextvp = d))) := by
  refine ⟨fun h => ?_, fun h => ⟨fun hn => ?_, fun d hd =>
    ⟨fun hbad => ?_, fun h1 h2 => ?_⟩⟩⟩ <;> simp only [vp_duration]
  · rw [if_neg h]
  · rw [if_pos h, hn]
  · rw [if_pos h, hd]
    show (if d ≤ 0 ∨ d > mfd then vp.duration else d) = vp.duration
    rw [if_pos hbad]
  · rw [if_pos h, hd]
    show (if d ≤ 0 ∨ d > mfd then vp.duration else d) = d
    rw [if_neg (by rintro (hc | hc) <;> linarith)]

/-- Witness for C10 at concrete frames: a serial change yields 0; a normal
pts step yields the pts difference; a non-positive difference and a NaN
difference fall back to the stored duration. -/
theorem vp_duration_spec_witness :
    vp_duration 3600 ⟨some 1, 7, 2, true⟩ ⟨some 5, 9, 3, true⟩ = 0 ∧
    vp_duration 3600 ⟨some 1, 7, 2, true⟩ ⟨some 5, 9, 2, true⟩ = 4 ∧
    vp_duration 3600 ⟨some 5, 7, 2, true⟩ ⟨some 1, 9, 2, true⟩ = 7 ∧
    vp_duration 3600 ⟨none, 7, 2, true⟩ ⟨some 1, 9, 2, true⟩ = 7 := by
  refine ⟨(vp_duration_spec 3600 _ _).1 (by decide), ?_, ?_, ?_⟩
  · exact (((vp_duration_spec 3600 ⟨some 1, 7, 2, true⟩
        ⟨some 5, 9, 2, true⟩).2 rfl).2 4 (by norm_num [osub])).2
      (by norm_num) (by norm_num)
  · exact (((vp_duration_spec 3600 ⟨some 5, 7, 2, true⟩
        ⟨some 1, 9, 2, true⟩).2 rfl).2 (-4) (by norm_num [osub])).1
      (Or.inl (by norm_num))
  · exact ((vp_duration_spec 3600 ⟨none, 7, 2, true⟩
        ⟨some 1, 9, 2, true⟩).2 rfl).1 (by simp [osub])

end FFplay
